import Mathlib

set_option maxRecDepth 8000

/-!
Shallow embedding of `molsym/pointgroup.py`: molecular symmetry point groups
and the algebra of irreducible representations (product, sum, power, ordering,
symbol lookup), together with theorems settling the specification claims.

Python exceptions are modelled by an explicit error type; values that may be a
single irrep or a list of irreps are modelled by a sum type mirroring the
dynamic typing of the source.
-/

/-- Python exception classes that appear in the source.  In CPython only
`KeyError` (and `IndexError`, unused here) derive from `LookupError`;
`AttributeError`, `TypeError`, `ValueError`, `NotImplementedError` and
`RecursionError` do not. -/
inductive PyExc where
  | typeError
  | valueError
  | attributeError
  | keyError
  | notImplementedError
  | recursionError
deriving DecidableEq

/-- Whether a Python exception is an instance of `LookupError`
(`KeyError` is; the others used by the source are not). -/
def isLookupError : PyExc → Bool
  | .keyError => true
  | _ => false

instance {ε α : Type} [DecidableEq ε] [DecidableEq α] : DecidableEq (Except ε α)
  | .ok x, .ok y =>
    if h : x = y then .isTrue (by rw [h])
    else .isFalse (fun hc => h (Except.ok.inj hc))
  | .ok _, .error _ => .isFalse (fun hc => Except.noConfusion hc)
  | .error _, .ok _ => .isFalse (fun hc => Except.noConfusion hc)
  | .error e, .error f =>
    if h : e = f then .isTrue (by rw [h])
    else .isFalse (fun hc => h (Except.error.inj hc))

/-- `IrreducibleRepresentation(pg, irrep, degenerate)`.  The owning point
group is identified by its family tag and order — this matches
`PointGroup.__eq__`/`__hash__`, which compare only `(pg, n)`.  `chars` is the
`irrep` tuple of integer characters. -/
structure Irrep where
  fam : String
  n : Nat
  chars : List Int
  degenerate : Bool
deriving DecidableEq

instance : Inhabited Irrep := ⟨⟨"", 0, [], false⟩⟩

/-- `IrreducibleRepresentation.__eq__`: equal iff the point groups are equal
(`pg` and `n`) and the character tuples are equal; the degeneracy flag is not
compared. -/
def pyEq (A B : Irrep) : Bool :=
  A.fam == B.fam && A.n == B.n && A.chars == B.chars

/-- Equality of the owning point groups, as tested by `self.pg == other.pg`
inside `__mul__` (PointGroup.__eq__ compares `pg` and `n`). -/
def pgEq (A B : Irrep) : Bool :=
  A.fam == B.fam && A.n == B.n

/-- The data `_set_irreps` stores on a supported point group: the ordered
`elements` bidict (Mulliken symbol to irrep, insertion order = canonical
table order), `symop_multiplicity` and `order`. -/
structure GroupData where
  fam : String
  n : Nat
  elements : List (String × Irrep)
  symopMultiplicity : List Int
  order : Int
deriving DecidableEq

/-- The irreps of a group in canonical table order (`elements.values()`). -/
def tableIrreps (gd : GroupData) : List Irrep :=
  gd.elements.map Prod.snd

/- The five tabulated character tables of `_set_irreps`, transcribed from the
source. -/

def c1_a : Irrep := ⟨"cn", 1, [1], false⟩

def c1Data : GroupData :=
  ⟨"cn", 1, [("a", c1_a)], [1], 1⟩

def c2v_a1 : Irrep := ⟨"cnv", 2, [1, 1, 1, 1], false⟩
def c2v_a2 : Irrep := ⟨"cnv", 2, [1, 1, -1, -1], false⟩
def c2v_b1 : Irrep := ⟨"cnv", 2, [1, -1, 1, -1], false⟩
def c2v_b2 : Irrep := ⟨"cnv", 2, [1, -1, -1, 1], false⟩

def c2vData : GroupData :=
  ⟨"cnv", 2,
   [("a1", c2v_a1), ("a2", c2v_a2), ("b1", c2v_b1), ("b2", c2v_b2)],
   [1, 1, 1, 1], 4⟩

def d3_a1 : Irrep := ⟨"dn", 3, [1, 1, 1], false⟩
def d3_a2 : Irrep := ⟨"dn", 3, [1, 1, -1], false⟩
def d3_e : Irrep := ⟨"dn", 3, [2, -1, 0], true⟩

def d3Data : GroupData :=
  ⟨"dn", 3, [("a1", d3_a1), ("a2", d3_a2), ("e", d3_e)], [1, 2, 3], 6⟩

def d2h_ag : Irrep := ⟨"dnh", 2, [1, 1, 1, 1, 1, 1, 1, 1], false⟩
def d2h_b1g : Irrep := ⟨"dnh", 2, [1, 1, -1, -1, 1, 1, -1, -1], false⟩
def d2h_b2g : Irrep := ⟨"dnh", 2, [1, -1, -1, 1, 1, -1, 1, -1], false⟩
def d2h_b3g : Irrep := ⟨"dnh", 2, [1, -1, 1, -1, 1, -1, -1, 1], false⟩
def d2h_au : Irrep := ⟨"dnh", 2, [1, 1, 1, 1, -1, -1, -1, -1], false⟩
def d2h_b1u : Irrep := ⟨"dnh", 2, [1, 1, -1, -1, -1, -1, 1, 1], false⟩
def d2h_b2u : Irrep := ⟨"dnh", 2, [1, -1, -1, 1, -1, 1, -1, 1], false⟩
def d2h_b3u : Irrep := ⟨"dnh", 2, [1, -1, 1, -1, -1, 1, 1, -1], false⟩

def d2hData : GroupData :=
  ⟨"dnh", 2,
   [("ag", d2h_ag), ("b1g", d2h_b1g), ("b2g", d2h_b2g), ("b3g", d2h_b3g),
    ("au", d2h_au), ("b1u", d2h_b1u), ("b2u", d2h_b2u), ("b3u", d2h_b3u)],
   [1, 1, 1, 1, 1, 1, 1, 1], 8⟩

def d6h_a1g : Irrep := ⟨"dnh", 6, [1, 1, 1, 1, 1, 1, 1, 1, 1, 1, 1, 1], false⟩
def d6h_a2g : Irrep := ⟨"dnh", 6, [1, 1, 1, 1, -1, -1, 1, 1, 1, 1, -1, -1], false⟩
def d6h_b1g : Irrep := ⟨"dnh", 6, [1, -1, 1, -1, 1, -1, 1, 1, -1, -1, -1, 1], false⟩
def d6h_b2g : Irrep := ⟨"dnh", 6, [1, -1, 1, -1, -1, 1, 1, 1, -1, -1, 1, -1], false⟩
def d6h_e1g : Irrep := ⟨"dnh", 6, [2, 1, -1, -2, 0, 0, 2, -1, 1, -2, 0, 0], true⟩
def d6h_e2g : Irrep := ⟨"dnh", 6, [2, -1, -1, 2, 0, 0, 2, -1, -1, 2, 0, 0], true⟩
def d6h_a1u : Irrep := ⟨"dnh", 6, [1, 1, 1, 1, 1, 1, -1, -1, -1, -1, -1, -1], false⟩
def d6h_a2u : Irrep := ⟨"dnh", 6, [1, 1, 1, 1, -1, -1, -1, -1, -1, -1, 1, 1], false⟩
def d6h_b1u : Irrep := ⟨"dnh", 6, [1, -1, 1, -1, 1, -1, -1, -1, 1, 1, 1, -1], false⟩
def d6h_b2u : Irrep := ⟨"dnh", 6, [1, -1, 1, -1, -1, 1, -1, -1, 1, 1, -1, 1], false⟩
def d6h_e1u : Irrep := ⟨"dnh", 6, [2, 1, -1, -2, 0, 0, -2, 1, -1, 2, 0, 0], true⟩
def d6h_e2u : Irrep := ⟨"dnh", 6, [2, -1, -1, 2, 0, 0, -2, 1, 1, -2, 0, 0], true⟩

def d6hData : GroupData :=
  ⟨"dnh", 6,
   [("a1g", d6h_a1g), ("a2g", d6h_a2g), ("b1g", d6h_b1g), ("b2g", d6h_b2g),
    ("e1g", d6h_e1g), ("e2g", d6h_e2g),
    ("a1u", d6h_a1u), ("a2u", d6h_a2u), ("b1u", d6h_b1u), ("b2u", d6h_b2u),
    ("e1u", d6h_e1u), ("e2u", d6h_e2u)],
   [1, 2, 2, 1, 3, 3, 1, 2, 2, 1, 3, 3], 24⟩

/-- `PointGroup._set_irreps`: the chain of `if` tests assigning the table data
for the tabulated (family, order) pairs; for every other pair no assignment is
made (modelled as `none`) and no exception is raised. -/
def setIrreps (fam : String) (n : Nat) : Option GroupData :=
  if fam == "cn" && n == 1 then some c1Data
  else if fam == "cnv" && n == 2 then some c2vData
  else if fam == "dn" && n == 3 then some d3Data
  else if fam == "dnh" && n == 2 then some d2hData
  else if fam == "dnh" && n == 6 then some d6hData
  else none

/-- All tabulated point groups. -/
def allGroups : List GroupData :=
  [c1Data, c2vData, d3Data, d2hData, d6hData]

/-- The state of a `PointGroup` object after `__init__` ran on the family tag
and order obtained from name parsing: `_set_irreps` populates `elements` only
for tabulated pairs and `__init__` returns normally either way (no exception
is raised on an unsupported pair). -/
structure PGState where
  fam : String
  n : Nat
  elements : Option GroupData
deriving DecidableEq

/-- `PointGroup.__init__` on the parsed (family, order) pair.  E.g. the
constructor call `PointGroup('D4h')` parses to family `"dnh"`, order 4. -/
def mkPG (fam : String) (n : Nat) : PGState :=
  ⟨fam, n, setIrreps fam n⟩

/-- Symbol lookup in the ordered `elements` mapping (`symbol in self.elements`
followed by `self.elements[symbol]`). -/
def lookupSymbol (gd : GroupData) (s : String) : Option Irrep :=
  (gd.elements.find? (fun p => p.1 == s)).map Prod.snd

/-- Python `str.lower` on one character (ASCII, as all table symbols are). -/
def lowerChar (c : Char) : Char :=
  if 'A' ≤ c ∧ c ≤ 'Z' then Char.ofNat (c.toNat + 32) else c

/-- Python `str.lower` over the characters of a string. -/
def lowerStr (s : String) : String :=
  ⟨s.data.map lowerChar⟩

/-- `PointGroup.__getattr__` on a group whose table was populated: lower-cases
the symbol, returns the irrep when present, raises `AttributeError`
("character ... does not exist in point group ...") when absent. -/
def getattrGD (gd : GroupData) (symbol : String) : Except PyExc Irrep :=
  match lookupSymbol gd (lowerStr symbol) with
  | some i => .ok i
  | none => .error .attributeError

/-- `PointGroup.__getattr__` on an arbitrary constructed state.  When
`_set_irreps` stored no table, the test `symbol in self.elements` re-enters
`__getattr__` on the missing name `elements`, recursing without bound until
Python raises `RecursionError`. -/
def getattrPG (st : PGState) (symbol : String) : Except PyExc Irrep :=
  match st.elements with
  | some gd => getattrGD gd symbol
  | none => .error .recursionError

/-- `PointGroup.irrep`: `self.elements[symbol]` with no lower-casing; a
missing key raises `KeyError` (a `LookupError`). -/
def irrepGD (gd : GroupData) (symbol : String) : Except PyExc Irrep :=
  match lookupSymbol gd symbol with
  | some i => .ok i
  | none => .error .keyError

/-- `PointGroup.ts`: `next(iter(self.elements.inv))`, the first irrep of the
ordered table (the totally symmetric irrep). -/
def tsGD (gd : GroupData) : Irrep :=
  (tableIrreps gd).headI

/-- `IrreducibleRepresentation._irrep_product`: position-wise product of the
two character tuples. -/
def irrepProduct (A B : Irrep) : List Int :=
  List.zipWith (· * ·) A.chars B.chars

/-- `sum([i*j*k for i,j,k in zip(mult, irrep.irrep, product)])`. -/
def sum3 : List Int → List Int → List Int → Int
  | i :: is, j :: js, k :: ks => i * j * k + sum3 is js ks
  | _, _, _ => 0

/-- The list `ai` of reduction coefficients: for each table irrep `R`, the
coefficient `int(1/order * sum(...))`.  The source evaluates the division in
floating point; for the tabulated data the weighted sum is always an exact
non-negative multiple of the group order (proved below), so the value is the
exact truncated quotient modelled here. -/
def reductionCoeffs (gd : GroupData) (product : List Int) : List Int :=
  (tableIrreps gd).map
    (fun R => (sum3 gd.symopMultiplicity R.chars product).tdiv gd.order)

/-- `[irrep for a, irrep in zip(ai, elements.values()) if a != 0]`: the table
irreps whose reduction coefficient is non-zero, in table order, each included
once. -/
def degenerateDecomp (gd : GroupData) (product : List Int) : List Irrep :=
  ((reductionCoeffs gd product).zip (tableIrreps gd)).filterMap
    (fun p => if p.1 ≠ 0 then some p.2 else none)

/-- The result of `__mul__` on an irrep operand: a single irrep or a list. -/
inductive MulResult where
  | one : Irrep → MulResult
  | many : List Irrep → MulResult
deriving DecidableEq

/-- `IrreducibleRepresentation.__mul__` with an irrep right operand.  Same
group: position-wise product; if both operands are degenerate the reducible
product is decomposed against the owning group's table (looked up here from
the family tag and order identifying `self.pg`), otherwise a single new irrep
is built with degeneracy flag `self.degenerate or other.degenerate`.
Different groups: `NotImplementedError`. -/
def mulII (A B : Irrep) : Except PyExc MulResult :=
  if pgEq A B then
    let product := irrepProduct A B
    if A.degenerate && B.degenerate then
      match setIrreps A.fam A.n with
      | some gd => .ok (.many (degenerateDecomp gd product))
      | none => .error .recursionError
    else
      .ok (.one ⟨A.fam, A.n, product, A.degenerate || B.degenerate⟩)
  else
    .error .notImplementedError

/-- `IrreducibleRepresentation.__lt__` when the table of `self.pg` is `tab`:
walk the table in canonical order; `True` at the first entry equal to `self`,
`False` at the first entry equal to `other`; falling off the end returns
`None`, which is falsy in a sort comparison. -/
def ltLoop (tab : List Irrep) (self other : Irrep) : Bool :=
  match tab with
  | [] => false
  | R :: rest =>
    if pyEq R self then true
    else if pyEq R other then false
    else ltLoop rest self other

/-- `__lt__` with the table looked up from the identity of `self.pg`. -/
def ltIrrep (A B : Irrep) : Bool :=
  match setIrreps A.fam A.n with
  | some gd => ltLoop (tableIrreps gd) A B
  | none => false

/-- Insert into a sorted list using `__lt__`: `x` goes in front of the first
element `y` with `x < y` true. -/
def insertByLt (x : Irrep) : List Irrep → List Irrep
  | [] => [x]
  | y :: ys => if ltIrrep x y then x :: y :: ys else y :: insertByLt x ys

/-- `list.sort()` on a list of irreps: sorting by the source's `__lt__`.
On every list arising in this development, elements that compare equal are
structurally identical, so the result is independent of the sorting
algorithm. -/
def sortIrreps (l : List Irrep) : List Irrep :=
  l.foldr insertByLt []

/-- `[self*irrep for irrep in other]`: left-to-right products, propagating
the first exception. -/
def mulEach (A : Irrep) : List Irrep → Except PyExc (List MulResult)
  | [] => .ok []
  | x :: xs => do
    let r ← mulII A x
    let rs ← mulEach A xs
    .ok (r :: rs)

/-- `flatten(...)` over a list of single-or-many products: single irreps are
kept as is (the generator explicitly refuses to iterate into an
`IrreducibleRepresentation`), inner lists are spliced. -/
def flattenResults : List MulResult → List Irrep
  | [] => []
  | .one x :: rest => x :: flattenResults rest
  | .many xs :: rest => xs ++ flattenResults rest

/-- `IrreducibleRepresentation.__mul__` with a list right operand:
`all_products = list(flatten([self*irrep for irrep in other]))` followed by
`all_products.sort()`.  Also the body of `__rmul__`, which evaluates
`self * other` when a list-by-irrep product falls back to the irrep. -/
def mulIL (A : Irrep) (l : List Irrep) : Except PyExc (List Irrep) := do
  let rs ← mulEach A l
  .ok (sortIrreps (flattenResults rs))

/-- `IrreducibleRepresentation.__add__` with an irrep operand:
`[self, other]` sorted. -/
def addII (A B : Irrep) : List Irrep :=
  sortIrreps [A, B]

/-- `IrreducibleRepresentation.__add__` with a list operand:
`[self] + other` sorted. -/
def addIL (A : Irrep) (l : List Irrep) : List Irrep :=
  sortIrreps (A :: l)

/-- `IrreducibleRepresentation.__radd__` with a list operand:
`other + [self]` sorted. -/
def raddIL (A : Irrep) (l : List Irrep) : List Irrep :=
  sortIrreps (l ++ [A])

/-- A Python value that is a single irrep or a list of irreps, as flows
through chained products and sums. -/
inductive PyVal where
  | ir : Irrep → PyVal
  | lst : List Irrep → PyVal
deriving DecidableEq

/-- `x * A` for `x` an irrep or a list.  An irrep left operand dispatches to
`__mul__`; a list left operand fails `list.__mul__` and falls back to
`A.__rmul__(x)`, which computes `A * x`. -/
def mulVal (x : PyVal) (A : Irrep) : Except PyExc PyVal :=
  match x with
  | .ir B => do
    match ← mulII B A with
    | .one r => .ok (.ir r)
    | .many rs => .ok (.lst rs)
  | .lst l => do
    .ok (.lst (← mulIL A l))

/-- `A + x` for `x` an irrep or a list (`__add__`). -/
def addValL (A : Irrep) (x : PyVal) : List Irrep :=
  match x with
  | .ir B => addII A B
  | .lst l => addIL A l

/-- `x + A` for `x` a list: `list.__add__` fails on the irrep and Python
falls back to `A.__radd__(x)`; for `x` an irrep it is plain `__add__`. -/
def addValR (x : PyVal) (A : Irrep) : List Irrep :=
  match x with
  | .ir B => addII B A
  | .lst l => raddIL A l

/-- `reduce(mul, ...)`: left-to-right folding of `*` over the remaining
operands, starting from the accumulated value. -/
def reduceMul (acc : PyVal) : List Irrep → Except PyExc PyVal
  | [] => .ok acc
  | x :: xs => do reduceMul (← mulVal acc x) xs

/-- `IrreducibleRepresentation.__pow__` with an integer exponent: `self` for
`other < 2`, otherwise `reduce(mul, [self] * other)` — the first list element
is the initial accumulator and the remaining `other - 1` copies are folded in
left to right. -/
def powII (A : Irrep) (k : Int) : Except PyExc PyVal :=
  if k < 2 then .ok (.ir A)
  else reduceMul (.ir A) (List.replicate (k.toNat - 1) A)

/-- A dynamically typed Python operand, for the type-dispatch in `__mul__`
and `__pow__`. -/
inductive PyObj where
  | irObj : Irrep → PyObj
  | listObj : List Irrep → PyObj
  | intObj : Int → PyObj
  | floatObj : PyObj
  | strObj : String → PyObj
deriving DecidableEq

/-- `isinstance(other, IrreducibleRepresentation)` or `isinstance(other, list)`. -/
def isIrrepOrList : PyObj → Bool
  | .irObj _ => true
  | .listObj _ => true
  | _ => false

/-- `isinstance(other, int)`. -/
def isIntObj : PyObj → Bool
  | .intObj _ => true
  | _ => false

/-- `IrreducibleRepresentation.__mul__` with its full type dispatch: an irrep
operand multiplies, a list operand distributes, and any other operand raises
`TypeError`. -/
def mulDyn (A : Irrep) (other : PyObj) : Except PyExc PyObj :=
  match other with
  | .irObj B => do
    match ← mulII A B with
    | .one r => .ok (.irObj r)
    | .many rs => .ok (.listObj rs)
  | .listObj l => do .ok (.listObj (← mulIL A l))
  | _ => .error .typeError

/-- `IrreducibleRepresentation.__pow__` with its full type dispatch: an
integer exponent is handled by the power rule and any other exponent raises
`ValueError` ("can only be raised to scalar of type int"). -/
def powDyn (A : Irrep) (other : PyObj) : Except PyExc PyObj :=
  match other with
  | .intObj k => do
    match ← powII A k with
    | .ir r => .ok (.irObj r)
    | .lst rs => .ok (.listObj rs)
  | _ => .error .valueError

/-- Position of an irrep in a group's canonical table, by Python equality
(index of the first table entry equal to it; table length when absent). -/
def posOf (gd : GroupData) (A : Irrep) : Nat :=
  (tableIrreps gd).findIdx (fun R => pyEq R A)

/-- Whether a list of irreps is sorted by the source's `__lt__` comparison
(each adjacent pair compares `<=` in table position). -/
def pairwiseSorted : List Irrep → Bool
  | [] => true
  | [_] => true
  | x :: y :: rest => ltIrrep x y && pairwiseSorted (y :: rest)

/-- "The product equals the single irrep `A`" in the sense of Python `==`:
the result is `.one` and compares equal to `A`. -/
def resultEqualsIrrep (r : Except PyExc MulResult) (A : Irrep) : Bool :=
  match r with
  | .ok (.one x) => pyEq x A
  | _ => false

/-- Modelled from the claim text for the degenerate product: for each table
irrep `R` in table order, include `R` with multiplicity `a_R` when `a_R > 0`
and omit it when `a_R = 0`. -/
def claimDecomp (gd : GroupData) (product : List Int) : List Irrep :=
  (((reductionCoeffs gd product).zip (tableIrreps gd)).map
    (fun p => List.replicate p.1.toNat p.2)).flatten

/-- The expression `e2u + e1g * e2u * e2u + a1g` in D6h, with Python's
left-to-right evaluation and the `__rmul__`/`__radd__` fallbacks for the
list-by-irrep steps. -/
def c3Expr : Except PyExc (List Irrep) := do
  let p1 ← mulVal (.ir d6h_e1g) d6h_e2u
  let p2 ← mulVal p1 d6h_e2u
  let s1 := addValL d6h_e2u p2
  .ok (addValR (.lst s1) d6h_a1g)

/-- Left-to-right iterated product of `m + 1` copies of `A`, written from the
claim's description of the power rule ("the left-to-right k-fold product of
A with itself"). -/
def iterMulSpec (A : Irrep) : Nat → Except PyExc PyVal
  | 0 => .ok (.ir A)
  | m + 1 => do mulVal (← iterMulSpec A m) A

/- Helper lemmas shared between claims. -/

/-- Inserting with `__lt__` yields a permutation of consing. -/
theorem insertByLt_perm (x : Irrep) : ∀ l : List Irrep, (insertByLt x l).Perm (x :: l)
  | [] => List.Perm.refl _
  | y :: ys => by
    unfold insertByLt
    by_cases h : ltIrrep x y = true
    · simp [h]
    · simp [h]
      exact ((insertByLt_perm x ys).cons y).trans (List.Perm.swap x y ys)

/-- Sorting by `__lt__` permutes and never drops or merges elements. -/
theorem sortIrreps_perm : ∀ l : List Irrep, (sortIrreps l).Perm l
  | [] => List.Perm.refl _
  | x :: xs => by
    unfold sortIrreps
    simp only [List.foldr]
    exact (insertByLt_perm x _).trans ((sortIrreps_perm xs).cons x)

/-- Folding `*` over a list with a final element splits into the fold over
the prefix followed by one multiplication. -/
theorem reduceMul_append (l : List Irrep) (x : Irrep) :
    ∀ acc, reduceMul acc (l ++ [x]) = (reduceMul acc l).bind (fun v => mulVal v x) := by
  induction l with
  | nil =>
    intro acc
    show (mulVal acc x >>= fun v => reduceMul v []) = mulVal acc x
    cases h : mulVal acc x <;> rfl
  | cons y ys ih =>
    intro acc
    show (mulVal acc y >>= fun v => reduceMul v (ys ++ [x])) =
      (mulVal acc y >>= fun v => reduceMul v ys).bind fun v => mulVal v x
    cases h : mulVal acc y
    · rfl
    · exact ih _

/-- `reduce(mul, [A] * (m+1))` equals the claim's left-to-right iterated
product of `m+1` copies of `A`. -/
theorem reduceMul_replicate (A : Irrep) :
    ∀ m, reduceMul (.ir A) (List.replicate m A) = iterMulSpec A m := by
  intro m
  induction m with
  | zero => rfl
  | succ k ih =>
    rw [List.replicate_succ', reduceMul_append, ih]
    rfl

/-- Claim C1: for every pair of degenerate irreps A and B of the same
tabulated point group, `A * B` returns exactly the decomposition described by
the reduction formula: each table irrep R, taken in canonical table order,
appears `a_R` times when its reduction coefficient `a_R` is positive and is
omitted when `a_R` is zero, and the resulting sequence is in canonical
(sorted) table order. -/
theorem claim1_degenerate_product_reduction :
    ∀ gd ∈ allGroups, ∀ A ∈ tableIrreps gd, ∀ B ∈ tableIrreps gd,
      A.degenerate = true → B.degenerate = true →
      mulII A B = .ok (.many (claimDecomp gd (irrepProduct A B))) ∧
      pairwiseSorted (claimDecomp gd (irrepProduct A B)) = true := by decide

/-- Witness for C1 at D6h with A = e1g, B = e2u. -/
theorem claim1_witness :
    d6h_e1g.degenerate = true ∧
    mulII d6h_e1g d6h_e2u =
      .ok (.many (claimDecomp d6hData (irrepProduct d6h_e1g d6h_e2u))) ∧
    pairwiseSorted (claimDecomp d6hData (irrepProduct d6h_e1g d6h_e2u)) = true :=
  ⟨by decide,
   claim1_degenerate_product_reduction d6hData (by decide) d6h_e1g (by decide)
     d6h_e2u (by decide) (by decide) (by decide)⟩

/-- Claim C2: for every pair of degenerate irreps A and B of the same
tabulated point group, every reduction coefficient is a non-negative integer
(the weighted character sum is non-negative and an exact multiple of the group
order), and the coefficients conserve dimension at the identity class:
`sum a_R * R.chars[0] = A.chars[0] * B.chars[0]`. -/
theorem claim2_reduction_coefficients :
    ∀ gd ∈ allGroups, ∀ A ∈ tableIrreps gd, ∀ B ∈ tableIrreps gd,
      A.degenerate = true → B.degenerate = true →
      (∀ R ∈ tableIrreps gd,
        0 ≤ sum3 gd.symopMultiplicity R.chars (irrepProduct A B) ∧
        sum3 gd.symopMultiplicity R.chars (irrepProduct A B) % gd.order = 0) ∧
      (∀ a ∈ reductionCoeffs gd (irrepProduct A B), 0 ≤ a) ∧
      (List.zipWith (fun a R => a * R.chars.headI)
          (reductionCoeffs gd (irrepProduct A B)) (tableIrreps gd)).sum =
        A.chars.headI * B.chars.headI := by decide

/-- Witness for C2 at D6h with A = e2u, B = e2u. -/
theorem claim2_witness :
    d6h_e2u.degenerate = true ∧
    (List.zipWith (fun a R => a * R.chars.headI)
        (reductionCoeffs d6hData (irrepProduct d6h_e2u d6h_e2u)) (tableIrreps d6hData)).sum =
      d6h_e2u.chars.headI * d6h_e2u.chars.headI :=
  ⟨by decide,
   (claim2_reduction_coefficients d6hData (by decide) d6h_e2u (by decide)
     d6h_e2u (by decide) (by decide) (by decide)).2.2⟩

/-- Claim C3: in D6h the expression `e2u + e1g*e2u*e2u + a1g` evaluates to
the canonically ordered sequence `[a1g, b1g, b2g, e1g, e1g, e1g, e2u]` of
length 7 with e1g three times adjacent; and in general a sum produces an
ordered sequence containing both operands (or all elements when one side is a
sequence) sorted into canonical table order with no reduction or cancellation
(the result is a permutation of the operands). -/
theorem claim3_sum_multiset :
    (c3Expr = .ok [d6h_a1g, d6h_b1g, d6h_b2g, d6h_e1g, d6h_e1g, d6h_e1g, d6h_e2u] ∧
      ∀ l, c3Expr = .ok l → l.length = 7) ∧
    (∀ A B : Irrep, (addII A B).Perm [A, B]) ∧
    (∀ (A : Irrep) (l : List Irrep), (addIL A l).Perm (A :: l)) ∧
    (∀ (A : Irrep) (l : List Irrep), (raddIL A l).Perm (l ++ [A])) ∧
    (∀ gd ∈ allGroups, ∀ A ∈ tableIrreps gd, ∀ B ∈ tableIrreps gd,
      pairwiseSorted (addII A B) = true) := by
  refine ⟨⟨by decide, ?_⟩, fun A B => sortIrreps_perm [A, B],
    fun A l => sortIrreps_perm (A :: l), fun A l => sortIrreps_perm (l ++ [A]),
    by decide⟩
  intro l hl
  have hc : c3Expr = .ok [d6h_a1g, d6h_b1g, d6h_b2g, d6h_e1g, d6h_e1g, d6h_e1g, d6h_e2u] := by
    decide
  rw [hc] at hl
  cases hl
  rfl

/-- Witness for C3: the sum parts instantiated at concrete D6h irreps. -/
theorem claim3_witness :
    (addII d6h_e2u d6h_a1g).Perm [d6h_e2u, d6h_a1g] ∧
    pairwiseSorted (addII d6h_e2u d6h_a1g) = true :=
  ⟨claim3_sum_multiset.2.1 d6h_e2u d6h_a1g,
   claim3_sum_multiset.2.2.2.2 d6hData (by decide) d6h_e2u (by decide) d6h_a1g (by decide)⟩

/-- Claim C4 (code bug): for an untabulated (family, order) pair such as
("dnh", 4) — the parse of `PointGroup('D4h')` — `_set_irreps` stores no table
and construction raises nothing, and the first symbol lookup on the
constructed group fails with `RecursionError` (the `__getattr__` recursion on
the missing `elements` attribute), which is not a `LookupError`. -/
theorem claim4_unsupported_group :
    setIrreps "dnh" 4 = none ∧
    (mkPG "dnh" 4).elements = none ∧
    getattrPG (mkPG "dnh" 4) "a1g" = .error .recursionError ∧
    isLookupError .recursionError = false ∧
    isLookupError .attributeError = false := by decide

/-- Claim C5: for every irrep A of a tabulated point group, the product of A
with the group's totally symmetric irrep (the first table entry) is a single
irrep equal (in the sense of the source's `__eq__`) to A. -/
theorem claim5_ts_identity :
    ∀ gd ∈ allGroups, ∀ A ∈ tableIrreps gd,
      resultEqualsIrrep (mulII A (tsGD gd)) A = true := by decide

/-- Witness for C5 at D6h with the degenerate irrep e1g. -/
theorem claim5_witness :
    d6h_e1g ∈ tableIrreps d6hData ∧
    resultEqualsIrrep (mulII d6h_e1g (tsGD d6hData)) d6h_e1g = true :=
  ⟨by decide, claim5_ts_identity d6hData (by decide) d6h_e1g (by decide)⟩

/-- Claim C6: when not both operands are degenerate, the product of two
irreps of the same group is a single irrep (never a sequence) of the same
group, whose characters are the position-wise product and whose degeneracy
flag is the disjunction of the operands' flags. -/
theorem claim6_nondegenerate_product_single
    (A B : Irrep) (hpg : pgEq A B = true)
    (hnd : ¬(A.degenerate = true ∧ B.degenerate = true)) :
    mulII A B =
      .ok (.one ⟨A.fam, A.n, irrepProduct A B, A.degenerate || B.degenerate⟩) := by
  have hdb : (A.degenerate && B.degenerate) = false := by
    cases hA : A.degenerate <;> cases hB : B.degenerate <;> simp_all
  simp [mulII, hpg, hdb]

/-- Witness for C6: `b2g * b1u` in D2h is the single irrep b3u. -/
theorem claim6_witness :
    pgEq d2h_b2g d2h_b1u = true ∧
    mulII d2h_b2g d2h_b1u =
      .ok (.one ⟨d2h_b2g.fam, d2h_b2g.n, irrepProduct d2h_b2g d2h_b1u,
        d2h_b2g.degenerate || d2h_b1u.degenerate⟩) ∧
    irrepProduct d2h_b2g d2h_b1u = d2h_b3u.chars :=
  ⟨by decide,
   claim6_nondegenerate_product_single d2h_b2g d2h_b1u (by decide) (by decide),
   by decide⟩

/-- Claim C7: `A ** k` returns A unchanged for every integer k below 2
(including 0 and negatives), and for k at least 2 computes the left-to-right
k-fold product of A with itself under the product rule, intermediate results
being allowed to become sequences. -/
theorem claim7_power :
    (∀ (A : Irrep) (k : Int), k < 2 → powII A k = .ok (.ir A)) ∧
    (∀ (A : Irrep) (k : Int), 2 ≤ k → powII A k = iterMulSpec A (k.toNat - 1)) := by
  constructor
  · intro A k hk
    simp [powII, hk]
  · intro A k hk
    have h2 : ¬ k < 2 := not_lt.mpr hk
    simp only [powII, if_neg h2]
    exact reduceMul_replicate A (k.toNat - 1)

/-- Witness for C7: powers 0, -1 and 3 of concrete irreps. -/
theorem claim7_witness :
    powII d2h_b2g 0 = .ok (.ir d2h_b2g) ∧
    powII d6h_e1g (-1) = .ok (.ir d6h_e1g) ∧
    powII d6h_e1g 3 = iterMulSpec d6h_e1g 2 :=
  ⟨claim7_power.1 d2h_b2g 0 (by decide),
   claim7_power.1 d6h_e1g (-1) (by decide),
   claim7_power.2 d6h_e1g 3 (by decide)⟩

/-- Counterexample to C8 as stated: exponentiating an irrep by a non-integer
raises `ValueError`, not a `TypeError`-class error. -/
theorem claim8_cex :
    powDyn d2h_ag (.strObj "two") = .error .valueError ∧
    (Except.error .valueError : Except PyExc PyObj) ≠ .error .typeError := by decide

/-- Claim C8 as amended: multiplying an irrep by a value that is neither an
irrep nor a list of irreps raises `TypeError`, and exponentiating by a
non-integer raises `ValueError` (not `TypeError`). -/
theorem claim8_amended_operand_types :
    (∀ (A : Irrep) (o : PyObj), isIrrepOrList o = false → mulDyn A o = .error .typeError) ∧
    (∀ (A : Irrep) (o : PyObj), isIntObj o = false → powDyn A o = .error .valueError) := by
  constructor
  · intro A o h
    cases o <;> simp_all [mulDyn, isIrrepOrList]
  · intro A o h
    cases o <;> simp_all [powDyn, isIntObj]

/-- Witness for amended C8 at concrete non-irrep operands. -/
theorem claim8_witness :
    isIrrepOrList (.strObj "q") = false ∧
    mulDyn d2h_ag (.strObj "q") = .error .typeError ∧
    powDyn d2h_ag .floatObj = .error .valueError :=
  ⟨by decide,
   claim8_amended_operand_types.1 d2h_ag (.strObj "q") (by decide),
   claim8_amended_operand_types.2 d2h_ag .floatObj (by decide)⟩

/-- Counterexample to C9 as stated: attribute lookup of the absent symbol "x"
on D2h (the claim's own example) raises `AttributeError`, which is not a
`LookupError`-class exception. -/
theorem claim9_cex :
    getattrGD d2hData "x" = .error .attributeError ∧
    isLookupError .attributeError = false := by decide

/-- Claim C9 as amended: attribute-style lookup of an absent symbol fails
with `AttributeError` ("character does not exist in point group"), which is
not a `LookupError`; the dictionary-style `irrep()` lookup of an absent
symbol fails with `KeyError` (which is a `LookupError`); lookup of a present
symbol is case-insensitive and returns the corresponding irrep. -/
theorem claim9_amended_lookup :
    (∀ (gd : GroupData) (s : String), lookupSymbol gd (lowerStr s) = none →
      getattrGD gd s = .error .attributeError ∧ isLookupError .attributeError = false) ∧
    (∀ (gd : GroupData) (s : String) (i : Irrep), lookupSymbol gd (lowerStr s) = some i →
      getattrGD gd s = .ok i) ∧
    (∀ (gd : GroupData) (s : String), lookupSymbol gd s = none →
      irrepGD gd s = .error .keyError ∧ isLookupError .keyError = true) := by
  refine ⟨?_, ?_, ?_⟩
  · intro gd s h
    exact ⟨by simp [getattrGD, h], rfl⟩
  · intro gd s i h
    simp [getattrGD, h]
  · intro gd s h
    exact ⟨by simp [irrepGD, h], rfl⟩

/-- Witness for amended C9: "x" is absent from D2h and fails with
`AttributeError`; the mixed-case symbol "B2G" resolves to b2g. -/
theorem claim9_witness :
    (getattrGD d2hData "x" = .error .attributeError ∧
      isLookupError .attributeError = false) ∧
    getattrGD d2hData "B2G" = .ok d2h_b2g ∧
    (irrepGD d2hData "x" = .error .keyError ∧ isLookupError .keyError = true) :=
  ⟨claim9_amended_lookup.1 d2hData "x" (by decide),
   claim9_amended_lookup.2.1 d2hData "B2G" d2h_b2g (by decide),
   claim9_amended_lookup.2.2 d2hData "x" (by decide)⟩

/-- Claim C10: for irreps A and B of the same tabulated point group, `A < B`
returns true iff A's canonical table position is at most B's; in particular
`A < A` is true for every table irrep, so the comparison is reflexive rather
than a strict order. -/
theorem claim10_lt_table_position :
    ∀ gd ∈ allGroups, ∀ A ∈ tableIrreps gd, ∀ B ∈ tableIrreps gd,
      (ltIrrep A B = true ↔ posOf gd A ≤ posOf gd B) ∧ ltIrrep A A = true := by decide

/-- Witness for C10 at D6h with A = e1g, B = a1g. -/
theorem claim10_witness :
    (ltIrrep d6h_e1g d6h_a1g = true ↔ posOf d6hData d6h_e1g ≤ posOf d6hData d6h_a1g) ∧
    ltIrrep d6h_e1g d6h_e1g = true :=
  claim10_lt_table_position d6hData (by decide) d6h_e1g (by decide) d6h_a1g (by decide)
